import Mathlib

/-!
Verification of the pcsc-deno smart-card library.

Shallow embedding of the ISO7816 APDU codec (src/iso7816/apdu.ts) and of
the Deno FFI PC/SC wrapper (src/deno-pcsc-ffi/pcsc-ffi.ts together with
the FFICard class).  TypeScript Uint8Array values are modelled as
List Nat whose entries are bytes; a scalar written into a Uint8Array
goes through the JavaScript ToUint8 coercion, modelled by u8.  Fallible
operations return Except JsError.  The native PC/SC layer is a black
box; each embedded wrapper takes the native call's behaviour as an
explicit function argument, which the wrapper consumes exactly once,
mirroring the single native invocation in the source.
-/

/-- JavaScript exceptions thrown by the embedded code: plain Error,
SmartCardException (apdu.ts), PCSCException carrying the native return
code and the operation name (pcsc.ts), and RangeError as thrown by an
out-of-bounds DataView access. -/
inductive JsError
  | jsErr (msg : String)
  | smartCardException (msg : String)
  | pcscException (rc : Nat) (fn : String)
  | rangeError
deriving Repr, DecidableEq

instance {ε α : Type} [DecidableEq ε] [DecidableEq α] :
    DecidableEq (Except ε α) := fun a b =>
  match a, b with
  | .ok x, .ok y =>
    if h : x = y then .isTrue (by rw [h]) else .isFalse (by simp [h])
  | .error x, .error y =>
    if h : x = y then .isTrue (by rw [h]) else .isFalse (by simp [h])
  | .ok _, .error _ => .isFalse (by simp)
  | .error _, .ok _ => .isFalse (by simp)

/-- JavaScript ToUint8 coercion applied when a scalar is stored into a
Uint8Array. -/
def u8 (n : Nat) : Nat := n % 256

/-- JavaScript Array.prototype.slice and Uint8Array.prototype.slice with
a start index (inclusive) and a stop index (exclusive). -/
def jsSlice (l : List Nat) (start stop : Nat) : List Nat :=
  (l.take stop).drop start

/-- DataView.getUint16 with big-endian byte order (the default), reading
at byte offset off. -/
def getUint16BE (l : List Nat) (off : Nat) : Nat :=
  l.getD off 0 * 256 + l.getD (off + 1) 0

/-- ISO7816 command APDU (class CommandAPDU in apdu.ts).  The data field
is optional exactly as in the source, where this.data stays undefined
when no data argument was given. -/
structure CommandAPDU where
  cla : Nat
  ins : Nat
  p1 : Nat
  p2 : Nat
  data : Option (List Nat)
  le : Option Nat
  isExtended : Bool
deriving Repr, DecidableEq

/-- CommandAPDU.toBytes: encodes the command under the given protocol.
Mirrors toBytes in apdu.ts: isT0 is protocol == 0, extended framing is
used only when isExtended and not T=0, le is forced to 0 when data is
present under T=0, and each length field is one byte (short) or three
bytes with a leading 0x00 (extended).  The Uint8Array writes of the
scalar fields go through u8. -/
def CommandAPDU.toBytes (a : CommandAPDU) (protocol : Nat) : List Nat :=
  let isT0 : Bool := protocol == 0
  let lc : Nat := (a.data.getD []).length
  let isExtended : Bool := a.isExtended && !isT0
  let le : Nat := if lc == 0 || !isT0 then a.le.getD 0 else 0
  [u8 a.cla, u8 a.ins, u8 a.p1, u8 a.p2]
    ++ (if lc == 0 then []
        else if isExtended then [0, u8 (lc >>> 8), u8 (lc &&& 255)]
        else [u8 lc])
    ++ a.data.getD []
    ++ (if le == 0 then []
        else if isExtended then [0, u8 (le >>> 8), u8 (le &&& 255)]
        else [u8 le])

/-- CommandAPDU.from (decode; named fromBytes because from is a reserved
word in Lean).  Mirrors the static from in apdu.ts: requires at least 4
bytes, reads the 4-byte header, reads a short Lc and Lc data bytes when
more than one byte follows the header, reads one trailing byte as Le
when present, and rejects the buffer when unconsumed bytes remain. -/
def CommandAPDU.fromBytes (bytes : List Nat) : Except JsError CommandAPDU :=
  if bytes.length < 4 then .error (.jsErr "CommandAPDU: Invalid buffer")
  else
    match bytes with
    | cla :: ins :: p1 :: p2 :: rest =>
      let withLc : Option (List Nat) × Nat :=
        if 1 < rest.length then
          match rest with
          | lc :: tl => (some (tl.take lc), 4 + 1 + lc)
          | [] => (none, 4)
        else (none, 4)
      let data := withLc.1
      let offset := withLc.2
      let withLe : Option Nat × Nat :=
        if offset < bytes.length then (some (bytes.getD offset 0), offset + 1)
        else (none, offset)
      if bytes.length ≠ withLe.2 then
        .error (.smartCardException "CommandAPDU: Invalid buffer")
      else .ok ⟨cla, ins, p1, p2, data, withLe.1, false⟩
    | _ => .error (.jsErr "CommandAPDU: Invalid buffer")

/-- ISO7816 response APDU (class ResponseAPDU in apdu.ts): a data body
and a 16-bit status word SW. -/
structure ResponseAPDU where
  SW : Nat
  data : List Nat
deriving Repr, DecidableEq

/-- ResponseAPDU constructor: decodes a byte buffer.  Mirrors the
constructor in apdu.ts: rejects buffers shorter than 2 bytes with a
SmartCardException, otherwise reads SW as a big-endian 16-bit value at
offset length - 2 and takes the preceding bytes as data. -/
def ResponseAPDU.ofBytes (bytes : List Nat) : Except JsError ResponseAPDU :=
  if bytes.length < 2 then
    .error (.smartCardException "ResponseAPDU Buffer invalid")
  else
    let la := bytes.length - 2
    .ok ⟨getUint16BE bytes la, bytes.take la⟩

/-- ResponseAPDU.toBytes: data followed by the two status-word bytes,
bytes[La] = (SW >> 8) & 0xff and bytes[La+1] = (SW >> 0) & 0xff. -/
def ResponseAPDU.toBytes (r : ResponseAPDU) : List Nat :=
  r.data ++ [(r.SW >>> 8) &&& 255, (r.SW >>> 0) &&& 255]

/-- ResponseAPDU.set: builder-style mutator replacing SW and data. -/
def ResponseAPDU.set (r : ResponseAPDU) (sw : Nat) (data : List Nat) :
    ResponseAPDU :=
  { r with SW := sw, data := data }

/-- ResponseAPDU.init: calls the constructor with its default empty byte
argument, then set(SW, data) on the result.  In the source the
constructor runs first, so set only runs when construction succeeded. -/
def ResponseAPDU.init (SW : Nat) (data : List Nat) :
    Except JsError ResponseAPDU :=
  (ResponseAPDU.ofBytes []).map (fun r => r.set SW data)

/-- Helper: taking exactly the length of the left part of an append
returns that left part. -/
theorem take_append_len {α : Type} (l l2 : List α) :
    (l ++ l2).take l.length = l := by
  induction l with
  | nil => rfl
  | cons a t ih => simp [ih]

/-- Helper: getD past the left part of an append indexes the right part. -/
theorem getD_append_len (l l2 : List Nat) (n : Nat) :
    (l ++ l2).getD (l.length + n) 0 = l2.getD n 0 := by
  induction l with
  | nil => simp
  | cons a t ih => simpa [Nat.succ_add] using ih

/-- Helper: decoding a buffer of the shape data ++ [a, b] through the
ResponseAPDU constructor yields SW = a * 256 + b and the data body. -/
theorem responseAPDU_ofBytes_append (data : List Nat) (a b : Nat) :
    ResponseAPDU.ofBytes (data ++ [a, b]) = .ok ⟨a * 256 + b, data⟩ := by
  have hlen : (data ++ [a, b]).length = data.length + 2 := by simp
  have e0 : (data ++ [a, b]).getD data.length 0 = a := by
    simpa using getD_append_len data [a, b] 0
  have e1 : (data ++ [a, b]).getD (data.length + 1) 0 = b := by
    simpa using getD_append_len data [a, b] 1
  unfold ResponseAPDU.ofBytes
  rw [hlen, if_neg (by omega)]
  simp only []
  have hla : data.length + 2 - 2 = data.length := by omega
  rw [hla]
  unfold getUint16BE
  rw [e0, e1, take_append_len]

/-- Helper: the two status-word bytes produced by ResponseAPDU.toBytes
are the big-endian split of SW whenever SW fits in 16 bits. -/
theorem responseAPDU_toBytes_eq (data : List Nat) (sw : Nat) :
    ResponseAPDU.toBytes ⟨sw, data⟩ = data ++ [sw / 256 % 256, sw % 256] := by
  have hhi : (sw >>> 8) &&& 255 = sw / 256 % 256 := by
    have hs : sw >>> 8 = sw / 256 := by rw [Nat.shiftRight_eq_div_pow]
    have hm := Nat.and_pow_two_sub_one_eq_mod (sw >>> 8) 8
    norm_num at hm
    rw [hm, hs]
  have hlo : (sw >>> 0) &&& 255 = sw % 256 := by
    have hm := Nat.and_pow_two_sub_one_eq_mod (sw >>> 0) 8
    norm_num at hm
    exact hm
  simp only [ResponseAPDU.toBytes, hhi, hlo]

/-- C4: for every byte sequence data and every 16-bit status word sw,
ResponseAPDU.toBytes always succeeds and yields data followed by the
big-endian status word, and decoding that encoding through the
ResponseAPDU constructor reproduces data and SW exactly. -/
theorem C4_responseAPDU_roundTrip (data : List Nat) (sw : Nat)
    (h : sw < 65536) :
    ResponseAPDU.toBytes ⟨sw, data⟩ = data ++ [sw / 256, sw % 256] ∧
    ResponseAPDU.ofBytes (ResponseAPDU.toBytes ⟨sw, data⟩) =
      .ok ⟨sw, data⟩ := by
  have hdiv : sw / 256 % 256 = sw / 256 := Nat.mod_eq_of_lt (by omega)
  have henc : ResponseAPDU.toBytes ⟨sw, data⟩ = data ++ [sw / 256, sw % 256] := by
    rw [responseAPDU_toBytes_eq, hdiv]
  refine ⟨henc, ?_⟩
  rw [henc, responseAPDU_ofBytes_append]
  have : sw / 256 * 256 + sw % 256 = sw := by omega
  rw [this]

/-- C4 witness: the round trip evaluated at SW = 0x9000 and a concrete
three-byte body. -/
theorem C4_witness :
    ResponseAPDU.toBytes ⟨36864, [1, 2, 3]⟩ = [1, 2, 3, 144, 0] ∧
    ResponseAPDU.ofBytes (ResponseAPDU.toBytes ⟨36864, [1, 2, 3]⟩) =
      .ok ⟨36864, [1, 2, 3]⟩ := by
  have h := C4_responseAPDU_roundTrip [1, 2, 3] 36864 (by decide)
  exact ⟨h.1, h.2⟩

/-- C8: ResponseAPDU.init always throws: the constructor runs on its
default empty byte argument, whose length 0 fails the minimum-length-2
check before set(SW, data) can run. -/
theorem C8_responseAPDU_init_throws (SW : Nat) (data : List Nat) :
    ResponseAPDU.init SW data =
      .error (.smartCardException "ResponseAPDU Buffer invalid") := rfl

/-- Helper: under protocol 1 with isExtended false, CommandAPDU.toBytes
takes the short form for every field and keeps le. -/
theorem commandAPDU_toBytes_T1 (cla ins p1 p2 : Nat)
    (data : Option (List Nat)) (le : Option Nat) :
    CommandAPDU.toBytes ⟨cla, ins, p1, p2, data, le, false⟩ 1 =
      [u8 cla, u8 ins, u8 p1, u8 p2]
        ++ (if (data.getD []).length = 0 then []
            else [u8 (data.getD []).length])
        ++ data.getD []
        ++ (if le.getD 0 = 0 then [] else [u8 (le.getD 0)]) := by
  unfold CommandAPDU.toBytes
  simp [show ((1 : Nat) == 0) = false from rfl, Bool.or_true, beq_iff_eq]

/-- Helper: decoding header + short Lc + exactly Lc data bytes. -/
theorem commandAPDU_fromBytes_lc (c i p q : Nat) (ds : List Nat)
    (hds : ds ≠ []) :
    CommandAPDU.fromBytes (c :: i :: p :: q :: ds.length :: ds) =
      .ok ⟨c, i, p, q, some ds, none, false⟩ := by
  have hpos : 0 < ds.length := List.length_pos.mpr hds
  have e0 : ((ds.length + 1 + 1 + 1 + 1 + 1 : Nat) < 4) = False := eq_false (by omega)
  have e1 : (1 < ds.length + 1) = True := eq_true (by omega)
  have e2 : ((4 + 1 + ds.length : Nat) < ds.length + 1 + 1 + 1 + 1 + 1) = False :=
    eq_false (by omega)
  have e3 : (ds.length + 1 + 1 + 1 + 1 + 1 ≠ 4 + 1 + ds.length) = False :=
    eq_false (by omega)
  simp [CommandAPDU.fromBytes, e0, e1, e2, e3]

/-- Helper: decoding header + short Lc + Lc data bytes + one Le byte. -/
theorem commandAPDU_fromBytes_lc_le (c i p q lv : Nat) (ds : List Nat)
    (hds : ds ≠ []) :
    CommandAPDU.fromBytes (c :: i :: p :: q :: ds.length :: (ds ++ [lv])) =
      .ok ⟨c, i, p, q, some ds, some lv, false⟩ := by
  have hpos : 0 < ds.length := List.length_pos.mpr hds
  have hget : (c :: i :: p :: q :: ds.length :: (ds ++ [lv])).getD
      (4 + 1 + ds.length) 0 = lv := by
    have h1 : (([c, i, p, q, ds.length] : List Nat) ++ (ds ++ [lv])).getD
        (([c, i, p, q, ds.length] : List Nat).length + ds.length) 0 =
        (ds ++ [lv]).getD ds.length 0 :=
      getD_append_len [c, i, p, q, ds.length] (ds ++ [lv]) ds.length
    have h2 : (ds ++ [lv]).getD ds.length 0 = lv :=
      getD_append_len ds [lv] 0
    have h3 : 4 + 1 + ds.length = ([c, i, p, q, ds.length] : List Nat).length
        + ds.length := by simp
    rw [h3]
    exact h1.trans h2
  have htake : (ds ++ [lv]).take ds.length = ds := take_append_len ds [lv]
  have f0 : ((ds.length + 1 + 1 + 1 + 1 + 1 + 1 : Nat) < 4) = False :=
    eq_false (by omega)
  have f1 : (1 < ds.length + 1 + 1) = True := eq_true (by omega)
  have f2 : ((4 + 1 + ds.length : Nat) < ds.length + 1 + 1 + 1 + 1 + 1 + 1) = True :=
    eq_true (by omega)
  have f3 : (ds.length + 1 + 1 + 1 + 1 + 1 + 1 ≠ 4 + 1 + ds.length + 1) = False :=
    eq_false (by omega)
  simp [CommandAPDU.fromBytes, f0, f1, f2, f3, htake]
  exact ((List.getD_eq_getElem _ 0 (by simp; omega)).symm).trans hget

/-- C3 (amended): for every CommandAPDU whose fields are valid for
short-form encoding (cla, ins, p1, p2 single bytes; data, when present,
nonempty and of length at most 255 with byte entries; le, when set, at
most 255; isExtended false), decoding its encoding under protocol T=1
reproduces cla, ins, p1, p2 and data.  When data is present but empty
the encoder omits the Lc field, so the decoder returns absent data
instead of an empty present field; see the counterexample. -/
theorem C3_commandAPDU_roundTrip_T1 (cla ins p1 p2 : Nat)
    (data : Option (List Nat)) (le : Option Nat)
    (hcla : cla ≤ 255) (hins : ins ≤ 255) (hp1 : p1 ≤ 255) (hp2 : p2 ≤ 255)
    (hdata : ∀ ds, data = some ds → ds ≠ [] ∧ ds.length ≤ 255)
    (hle : le.getD 0 ≤ 255) :
    (CommandAPDU.fromBytes
        (CommandAPDU.toBytes ⟨cla, ins, p1, p2, data, le, false⟩ 1)).map
      (fun b => (b.cla, b.ins, b.p1, b.p2, b.data)) =
    Except.ok (cla, ins, p1, p2, data) := by
  have hu : ∀ n : Nat, n ≤ 255 → u8 n = n := fun n h =>
    Nat.mod_eq_of_lt (by omega)
  rw [commandAPDU_toBytes_T1, hu cla hcla, hu ins hins, hu p1 hp1, hu p2 hp2]
  rcases data with _ | ds
  · by_cases hle0 : le.getD 0 = 0
    · simp [hle0]
      rfl
    · simp only [Option.getD_none, List.length_nil, ite_true,
        List.append_nil, List.nil_append]
      rw [if_neg hle0, hu (le.getD 0) hle]
      rfl
  · obtain ⟨hne, h255⟩ := hdata ds rfl
    have hpos : 0 < ds.length := List.length_pos.mpr hne
    have hlen0 : ¬ (ds.length = 0) := by omega
    simp only [Option.getD_some]
    rw [hu ds.length h255]
    by_cases hle0 : le.getD 0 = 0
    · rw [if_neg hlen0, if_pos hle0]
      simp only [List.append_nil]
      rw [show ([cla, ins, p1, p2] ++ [ds.length] ++ ds : List Nat) =
        cla :: ins :: p1 :: p2 :: ds.length :: ds by simp]
      rw [commandAPDU_fromBytes_lc cla ins p1 p2 ds hne]
      rfl
    · rw [if_neg hlen0, if_neg hle0, hu (le.getD 0) hle]
      rw [show ([cla, ins, p1, p2] ++ [ds.length] ++ ds ++ [le.getD 0] :
          List Nat) =
        cla :: ins :: p1 :: p2 :: ds.length :: (ds ++ [le.getD 0]) by simp]
      rw [commandAPDU_fromBytes_lc_le cla ins p1 p2 (le.getD 0) ds hne]
      rfl

/-- C3 witness: the amended round trip evaluated at a concrete command
with two data bytes and le set. -/
theorem C3_witness :
    (CommandAPDU.fromBytes
        (CommandAPDU.toBytes ⟨0, 164, 4, 0, some [18, 52], some 16, false⟩ 1)).map
      (fun b => (b.cla, b.ins, b.p1, b.p2, b.data)) =
    Except.ok (0, 164, 4, 0, some [18, 52]) :=
  C3_commandAPDU_roundTrip_T1 0 164 4 0 (some [18, 52]) (some 16)
    (by decide) (by decide) (by decide) (by decide)
    (by intro ds h; cases h; exact ⟨by decide, by decide⟩) (by decide)

/-- C3 counterexample: for a CommandAPDU whose data field is present but
empty (a valid short-form field assignment: length 0 is at most 255),
the T=1 round trip does not reproduce the data field: the decoder
returns absent data where the original had an empty present field. -/
theorem C3_counterexample :
    CommandAPDU.fromBytes
        (CommandAPDU.toBytes ⟨0, 0, 0, 0, some [], none, false⟩ 1) =
      .ok ⟨0, 0, 0, 0, none, none, false⟩ ∧
    some ([] : List Nat) ≠ (none : Option (List Nat)) := by
  exact ⟨rfl, by simp⟩

/-- Helper: under protocol 0 the encoder never takes an extended branch;
Lc is a single byte whenever data is nonempty, and Le is a single byte
emitted only when lc is 0 and le is nonzero. -/
theorem commandAPDU_toBytes_T0 (cla ins p1 p2 : Nat)
    (data : Option (List Nat)) (le : Option Nat) (ext : Bool) :
    CommandAPDU.toBytes ⟨cla, ins, p1, p2, data, le, ext⟩ 0 =
      [u8 cla, u8 ins, u8 p1, u8 p2]
        ++ (if (data.getD []).length = 0 then []
            else [u8 (data.getD []).length])
        ++ data.getD []
        ++ (if (data.getD []).length = 0 ∧ le.getD 0 ≠ 0 then
              [u8 (le.getD 0)]
            else []) := by
  unfold CommandAPDU.toBytes
  simp only [show ((0 : Nat) == 0) = true from rfl, Bool.not_true,
    Bool.and_false, Bool.or_false, beq_iff_eq]
  by_cases h0 : (data.getD []).length = 0
  · by_cases hle0 : le.getD 0 = 0
    · simp [h0, hle0]
    · simp [h0, hle0]
  · simp [h0]

/-- C6: for every CommandAPDU encoded under protocol T=0, extended
framing is never used and the Le field is included only when the data
field is empty: with nonempty data the encoding is exactly the header,
one short Lc byte and the data, with no Le field and no extended length
field; with absent or empty data it is the header plus at most one
short Le byte.  In particular the encoding never contains both an
extended Lc field and an Le field when data is present. -/
theorem C6_commandAPDU_T0 (a : CommandAPDU) :
    ((a.data.getD []) ≠ [] →
      CommandAPDU.toBytes a 0 =
        [u8 a.cla, u8 a.ins, u8 a.p1, u8 a.p2]
          ++ [u8 (a.data.getD []).length] ++ a.data.getD []) ∧
    ((a.data.getD []) = [] →
      CommandAPDU.toBytes a 0 =
        [u8 a.cla, u8 a.ins, u8 a.p1, u8 a.p2]
          ++ (if a.le.getD 0 = 0 then [] else [u8 (a.le.getD 0)])) := by
  obtain ⟨cla, ins, p1, p2, data, le, ext⟩ := a
  constructor
  · intro hne
    have hpos : 0 < (data.getD []).length := List.length_pos.mpr hne
    rw [commandAPDU_toBytes_T0, if_neg (by omega),
      if_neg (fun h => absurd h.1 (by omega))]
    simp
  · intro h0
    rw [commandAPDU_toBytes_T0, h0]
    by_cases hle0 : le.getD 0 = 0
    · simp [hle0]
    · simp [hle0]

/-- C6 witness: the T=0 encoding evaluated at a command with one data
byte (Le suppressed, short Lc) and at a command without data (Le
emitted as one byte), both with isExtended set to true to exercise the
suppression of extended framing. -/
theorem C6_witness :
    CommandAPDU.toBytes ⟨1, 2, 3, 4, some [9], some 5, true⟩ 0 =
      [1, 2, 3, 4, 1, 9] ∧
    CommandAPDU.toBytes ⟨1, 2, 3, 4, none, some 5, true⟩ 0 =
      [1, 2, 3, 4, 5] := by
  constructor
  · exact (C6_commandAPDU_T0 ⟨1, 2, 3, 4, some [9], some 5, true⟩).1
      (by decide)
  · exact (C6_commandAPDU_T0 ⟨1, 2, 3, 4, none, some 5, true⟩).2 rfl

/-- Result code plus out-parameters of one native SCardTransmit call:
the bytes the native layer left in the receive buffer and the receive
length it wrote back through the length out-parameter. -/
structure NativeTransmitOut where
  rc : Nat
  recvFilled : List Nat
  reportedLen : Nat
deriving Repr, DecidableEq

/-- ensureSCardSuccess in pcsc-ffi.ts: a nonzero native return code
becomes a PCSCException carrying the code and the operation name. -/
def ensureSCardSuccess (rc : Nat) (fn : String) : Except JsError Unit :=
  if rc ≠ 0 then .error (.pcscException rc fn) else .ok ()

/-- Receive buffer allocated by SCardTransmit in pcsc-ffi.ts:
recvLength + 2 zero bytes. -/
def scardTransmitRecvBuffer (recvLength : Nat) : List Nat :=
  List.replicate (recvLength + 2) 0

/-- SCardTransmit in pcsc-ffi.ts.  The native call is the function
argument; it receives the send buffer and the allocated receive buffer
and yields the return code, the filled receive buffer and the reported
receive length.  On success the result is the filled buffer truncated
to the reported length. -/
def SCardTransmit (hCard : Nat) (sendBuffer : List Nat) (recvLength : Nat)
    (native : List Nat → List Nat → NativeTransmitOut) :
    Except JsError (List Nat) :=
  let recvBuffer := scardTransmitRecvBuffer recvLength
  let out := native sendBuffer recvBuffer
  match ensureSCardSuccess out.rc "SCardTransmit" with
  | .error e => .error e
  | .ok _ => .ok (jsSlice out.recvFilled 0 out.reportedLen)

/-- FFICard (the card class shipped with pcsc-ffi.ts): the card's
private handle and protocol plus the owning reader, represented by the
reader's status string, the only part of the reader the embedded
methods read. -/
structure FFICard where
  handle : Nat
  protocol : Nat
  readerStatus : String
deriving Repr, DecidableEq

/-- FFICard.isConnected: the source returns the comparison
this.reader.status != "connected". -/
def FFICard.isConnected (c : FFICard) : Bool :=
  c.readerStatus != "connected"

/-- FFICard.transmit: throws SmartCardException when the private handle
is 0 (falsy), otherwise calls SCardTransmit with receive length
2 + (expectedLen ?? 256). -/
def FFICard.transmit (c : FFICard) (command : List Nat)
    (expectedLen : Option Nat)
    (native : List Nat → List Nat → NativeTransmitOut) :
    Except JsError (List Nat) :=
  if c.handle == 0 then .error (.smartCardException "SmartCard disconected")
  else SCardTransmit c.handle command (2 + expectedLen.getD 256) native

/-- Modelled from the spec: SCARD_ERROR_TIMEOUT is declared in
src/pcsc/pcsc.ts, which is not among the provided sources; the spec
describes it as the distinguished native timeout status code, a nonzero
error code, 0x8010000A in PC/SC. -/
def SCARD_ERROR_TIMEOUT : Nat := 0x8010000A

/-- Uint8Array.prototype.set: writes src into dst at byte offset off
(in the marshalling loop the write always fits). -/
def uint8ArraySet (dst src : List Nat) (off : Nat) : List Nat :=
  dst.take off ++ src ++ dst.drop (off + src.length)

/-- Marshalling loop of SCardGetStatusChange: a zero-filled buffer of
size * n bytes into which each state's record buffer is written at
index * size. -/
def marshalStates {σ : Type} (size : Nat) (bufferOf : σ → List Nat)
    (states : List σ) : List Nat :=
  (states.enum).foldl
    (fun buf p => uint8ArraySet buf (bufferOf p.2) (p.1 * size))
    (List.replicate (size * states.length) 0)

/-- Argument handed to state.handleChange for the reader at the given
index: stateBuffer.slice(index * size, size), where the second argument
of Uint8Array.prototype.slice is an end index, not a length. -/
def handleChangeArg (stateBuffer : List Nat) (index size : Nat) : List Nat :=
  jsSlice stateBuffer (index * size) size

/-- Diff loop of SCardGetStatusChange: each state receives its slice
through handleChange (which updates the state and reports whether its
event bitmask changed) and the changed states are collected in order. -/
def collectChanged {σ : Type} (size : Nat)
    (handleChange : σ → List Nat → σ × Bool) (stateBuffer : List Nat)
    (states : List σ) : List σ :=
  (states.enum).foldl
    (fun changed p =>
      let upd := handleChange p.2 (handleChangeArg stateBuffer p.1 size)
      if upd.2 then changed ++ [upd.1] else changed)
    []

/-- SCardGetStatusChange in pcsc-ffi.ts.  size stands for
SCARDREADERSTATE_SIZE (declared in src/pcsc/reader-state.ts, outside
the provided sources).  The native call is the function argument: it
maps the context, timeout, marshalled state buffer and state count to
the return code and the natively updated state buffer.  A timeout
return code yields an empty result before the success check; any other
nonzero code raises a PCSCException; on success the per-record diff
loop runs. -/
def SCardGetStatusChange {σ : Type} (size : Nat) (hContext timeout : Nat)
    (bufferOf : σ → List Nat) (handleChange : σ → List Nat → σ × Bool)
    (native : Nat → Nat → List Nat → Nat → Nat × List Nat)
    (states : List σ) : Except JsError (List σ) :=
  let stateBuffer := marshalStates size bufferOf states
  let res := native hContext timeout stateBuffer states.length
  if res.1 = SCARD_ERROR_TIMEOUT then .ok []
  else
    match ensureSCardSuccess res.1 "SCardGetStatusChange" with
    | .error e => .error e
    | .ok _ => .ok (collectChanged size handleChange res.2 states)

/-- Modelled from the spec: SCARDREADERSTATE.handleChange is declared in
src/pcsc/reader-state.ts, which is not among the provided sources.  Per
the spec the monitor unmarshals each reader's updated record into its
state and reports whether the event bitmask changed; it is abstracted
here over record buffers as: the state becomes the record it is handed,
and it counts as changed exactly when that record differs from the
prior state. -/
def specHandleChange : List Nat → List Nat → List Nat × Bool :=
  fun s newBuf => (newBuf, s != newBuf)

/-- Modelled from the spec: DWORD_SIZE is declared in src/pcsc/pcsc.ts,
outside the provided sources; a DWORD is a 32-bit double word, so its
byte size is 4. -/
def DWORD_SIZE : Nat := 4

/-- DataView.prototype.setUint32 bounds condition: a 4-byte write at
the given byte offset into a buffer of the given byte length succeeds
exactly when offset + 4 fits; otherwise setUint32 throws a RangeError. -/
def dataViewSetUint32InBounds (bufferLen off : Nat) : Prop :=
  off + 4 ≤ bufferLen

instance : ∀ b o, Decidable (dataViewSetUint32InBounds b o) := fun b o =>
  inferInstanceAs (Decidable (o + 4 ≤ b))

/-- Result code and reported output length of one native SCardControl
call. -/
structure NativeControlOut where
  rc : Nat
  outLenReported : Nat
deriving Repr, DecidableEq

/-- SCardControl in pcsc-ffi.ts.  The outLen buffer has DWORD_SIZE = 4
bytes, and the source calls setUint32 with the arguments swapped:
dataOut.length is passed as the byte offset and 0 as the value, so the
write is in bounds only when dataOut.length = 0; for any longer dataOut
the DataView throws a RangeError before the native call.  The native
call is the function argument from (dataIn, dataOut) to its return code
and the reported output length. -/
def SCardControl (hCard ioctl : Nat) (dataIn dataOut : List Nat)
    (native : List Nat → List Nat → NativeControlOut) :
    Except JsError Nat :=
  if dataViewSetUint32InBounds DWORD_SIZE dataOut.length then
    let out := native dataIn dataOut
    match ensureSCardSuccess out.rc "SCardControl" with
    | .error e => .error e
    | .ok _ => .ok out.outLenReported
  else .error .rangeError

/-- C7: for every byte sequence, expected length and native behaviour,
transmit on a card whose handle is zero raises a SmartCardException;
the result is the same for every native transmit function, which is
never consulted (the source throws before the native call). -/
theorem C7_transmit_disconnected (protocol : Nat) (readerStatus : String)
    (command : List Nat) (expectedLen : Option Nat)
    (native : List Nat → List Nat → NativeTransmitOut) :
    FFICard.transmit ⟨0, protocol, readerStatus⟩ command expectedLen
        native =
      .error (.smartCardException "SmartCard disconected") := rfl

/-- Native probe used for C2: it succeeds and reports the full length of
the receive buffer it was handed, so the transmit result reveals that
buffer. -/
def probeNative : List Nat → List Nat → NativeTransmitOut :=
  fun _ recvBuffer => ⟨0, recvBuffer, recvBuffer.length⟩

/-- C2 counterexample: transmit with expectedResponseLength 0 on a
connected card hands the native call a receive buffer of 4 bytes, not
0 + 2 = 2: FFICard.transmit already adds 2 for the status word and
SCardTransmit adds 2 more. -/
theorem C2_counterexample :
    FFICard.transmit ⟨7, 1, "present"⟩ [] (some 0) probeNative =
      .ok [0, 0, 0, 0] ∧
    ([0, 0, 0, 0] : List Nat).length ≠ 0 + 2 := ⟨rfl, by decide⟩

/-- C2 (amended): for every transmit(bytes, expectedResponseLength) on a
connected card (handle not 0), the receive buffer handed to the native
transmit call is exactly expectedResponseLength + 4 bytes long (2 added
by FFICard.transmit for the status word and 2 more by SCardTransmit),
and on native success the returned byte sequence is that buffer as
filled by the native call, truncated to the length the native call
reported. -/
theorem C2_transmit_buffer (handle protocol : Nat) (readerStatus : String)
    (command : List Nat) (expectedLen : Nat)
    (native : List Nat → List Nat → NativeTransmitOut)
    (out : NativeTransmitOut)
    (hh : handle ≠ 0)
    (hnative : native command
        (scardTransmitRecvBuffer (2 + expectedLen)) = out)
    (hrc : out.rc = 0) :
    (scardTransmitRecvBuffer (2 + expectedLen)).length = expectedLen + 4 ∧
    FFICard.transmit ⟨handle, protocol, readerStatus⟩ command
        (some expectedLen) native =
      .ok (jsSlice out.recvFilled 0 out.reportedLen) := by
  constructor
  · simp [scardTransmitRecvBuffer]
    omega
  · have hb : (handle == 0) = false := by
      simp [hh]
    unfold FFICard.transmit
    simp only [hb, Bool.false_eq_true, if_false]
    unfold SCardTransmit
    simp only [Option.getD_some, hnative]
    unfold ensureSCardSuccess
    rw [hrc]
    simp

/-- C2 witness: the amended statement at expectedResponseLength 0 with
the probing native call. -/
theorem C2_witness :
    (scardTransmitRecvBuffer (2 + 0)).length = 0 + 4 ∧
    FFICard.transmit ⟨7, 1, "present"⟩ [] (some 0) probeNative =
      .ok (jsSlice [0, 0, 0, 0] 0 4) :=
  C2_transmit_buffer 7 1 "present" [] 0 probeNative ⟨0, [0, 0, 0, 0], 4⟩
    (by decide) rfl rfl

/-- C9: FFICard.isConnected depends only on the owning reader's status
string, independently of the card's own handle and protocol; it is true
exactly when that status differs from the string "connected", and in
particular a card whose reader reports status "connected" has
isConnected false. -/
theorem C9_isConnected (h1 v1 h2 v2 : Nat) (s : String) :
    FFICard.isConnected ⟨h1, v1, s⟩ = FFICard.isConnected ⟨h2, v2, s⟩ ∧
    (FFICard.isConnected ⟨h1, v1, s⟩ = true ↔ s ≠ "connected") ∧
    (s = "connected" → FFICard.isConnected ⟨h1, v1, s⟩ = false) := by
  refine ⟨rfl, ?_, ?_⟩
  · simp [FFICard.isConnected]
  · intro hs
    subst hs
    simp [FFICard.isConnected]

/-- C9 witness: a card with nonzero handle whose reader status is
"connected" is reported not connected, and a card with zero handle on a
reader in status "present" is reported connected. -/
theorem C9_witness :
    FFICard.isConnected ⟨5, 1, "connected"⟩ = false ∧
    FFICard.isConnected ⟨0, 0, "present"⟩ = true :=
  ⟨(C9_isConnected 5 1 0 0 "connected").2.2 rfl,
   (C9_isConnected 0 0 5 1 "present").2.1.mpr (by decide)⟩

/-- C10: every SCardControl call with a nonempty dataOut buffer throws a
RangeError before the native control call is issued (for every native
behaviour), because the output-length write passes dataOut.length as
the byte offset into the 4-byte DataView; and a zero-length dataOut is
the only case that reaches the native call, whose return code then
determines the outcome. -/
theorem C10_scardControl (hCard ioctl : Nat) (dataIn dataOut : List Nat)
    (native : List Nat → List Nat → NativeControlOut)
    (hlen : 1 ≤ dataOut.length) :
    SCardControl hCard ioctl dataIn dataOut native =
      .error .rangeError ∧
    SCardControl hCard ioctl dataIn [] native =
      (if (native dataIn []).rc ≠ 0 then
        .error (.pcscException (native dataIn []).rc "SCardControl")
      else .ok (native dataIn []).outLenReported) := by
  constructor
  · unfold SCardControl
    rw [if_neg (show ¬ dataViewSetUint32InBounds DWORD_SIZE dataOut.length by
      unfold dataViewSetUint32InBounds DWORD_SIZE
      omega)]
  · unfold SCardControl
    rw [if_pos (show dataViewSetUint32InBounds DWORD_SIZE
        ([] : List Nat).length by
      unfold dataViewSetUint32InBounds DWORD_SIZE
      simp)]
    unfold ensureSCardSuccess
    show (match
        if (native dataIn []).rc ≠ 0 then
          Except.error (JsError.pcscException (native dataIn []).rc
            "SCardControl")
        else Except.ok () with
      | Except.error e => Except.error e
      | Except.ok _ => Except.ok (native dataIn []).outLenReported) = _
    by_cases hrc : (native dataIn []).rc ≠ 0
    · rw [if_pos hrc, if_pos hrc]
    · rw [if_neg hrc, if_neg hrc]

/-- Native probe used for the C10 witness: succeeds with reported output
length 5. -/
def controlNativeDemo : List Nat → List Nat → NativeControlOut :=
  fun _ _ => ⟨0, 5⟩

/-- C10 witness: a one-byte dataOut yields the RangeError, and the empty
dataOut reaches the native call and returns its reported length. -/
theorem C10_witness :
    SCardControl 3 42 [1] [9] controlNativeDemo = .error .rangeError ∧
    SCardControl 3 42 [1] [] controlNativeDemo = .ok 5 :=
  ⟨(C10_scardControl 3 42 [1] [9] controlNativeDemo (by decide)).1,
   (C10_scardControl 3 42 [1] [9] controlNativeDemo (by decide)).2⟩

/-- C5 (amended): on a native timeout return code waitForChange returns
an empty sequence without raising an error; on every other nonzero
return code it raises a PCSCException carrying the numeric code and the
operation name "SCardGetStatusChange"; the embedding consumes the
native call's result exactly once, so the call is never retried.  (A
successful call, return code 0, can also yield an empty sequence when
no watched reader changed, so the empty result is not exclusive to the
timeout code; see the counterexample.) -/
theorem C5_statusChange_errors (σ : Type) (size hContext timeout : Nat)
    (bufferOf : σ → List Nat) (handleChange : σ → List Nat → σ × Bool)
    (native : Nat → Nat → List Nat → Nat → Nat × List Nat)
    (states : List σ) (rc : Nat) (outBuf : List Nat)
    (hnative : native hContext timeout
        (marshalStates size bufferOf states) states.length = (rc, outBuf)) :
    (rc = SCARD_ERROR_TIMEOUT →
      SCardGetStatusChange size hContext timeout bufferOf handleChange
          native states = .ok []) ∧
    (rc ≠ SCARD_ERROR_TIMEOUT → rc ≠ 0 →
      SCardGetStatusChange size hContext timeout bufferOf handleChange
          native states =
        .error (.pcscException rc "SCardGetStatusChange")) := by
  unfold SCardGetStatusChange
  simp only [hnative]
  constructor
  · intro h
    rw [if_pos h]
  · intro h1 h2
    rw [if_neg h1]
    unfold ensureSCardSuccess
    rw [if_pos h2]

/-- C5 witness: the error mapping evaluated over an empty watched list,
once with a native call that reports the timeout code and once with a
native call that fails with code 6. -/
theorem C5_witness :
    SCardGetStatusChange 4 7 1000 (fun s : List Nat => s) specHandleChange
        (fun _ _ _ _ => (SCARD_ERROR_TIMEOUT, [])) [] = .ok [] ∧
    SCardGetStatusChange 4 7 1000 (fun s : List Nat => s) specHandleChange
        (fun _ _ _ _ => (6, [])) [] =
      .error (.pcscException 6 "SCardGetStatusChange") :=
  ⟨(C5_statusChange_errors (List Nat) 4 7 1000 (fun s => s)
      specHandleChange (fun _ _ _ _ => (SCARD_ERROR_TIMEOUT, [])) []
      SCARD_ERROR_TIMEOUT [] rfl).1 rfl,
   (C5_statusChange_errors (List Nat) 4 7 1000 (fun s => s)
      specHandleChange (fun _ _ _ _ => (6, [])) [] 6 [] rfl).2
      (by decide) (by decide)⟩

/-- C5 counterexample: a successful native call (return code 0) over an
empty watched list also returns an empty sequence without raising an
error, although 0 is not the timeout status code; so an empty no-error
result does not happen exactly when the native call returns the timeout
code. -/
theorem C5_counterexample :
    SCardGetStatusChange 4 7 1000 (fun s : List Nat => s) specHandleChange
        (fun _ _ _ _ => (0, [])) [] = .ok [] ∧
    (0 : Nat) ≠ SCARD_ERROR_TIMEOUT := ⟨rfl, by decide⟩

/-- C1 (code bug): the diff loop of SCardGetStatusChange passes
SCARDREADERSTATE_SIZE as the end index of Uint8Array.slice instead of
(index + 1) * SCARDREADERSTATE_SIZE, so for every reader index past the
first the slice handed to handleChange is empty and the reader is not
updated from its own record.  Concretely, with record size 4, two
watched readers and a native-updated buffer whose second record is
[50, 61, 70, 80], the call returns the second reader updated from the
empty slice (an empty record) instead of from its own slot. -/
theorem C1_slice_bug :
    SCardGetStatusChange 4 7 1000 (fun s : List Nat => s) specHandleChange
        (fun _ _ _ _ => (0, [10, 20, 30, 40, 50, 61, 70, 80]))
        [[10, 20, 30, 40], [50, 60, 70, 80]] = .ok [[]] ∧
    handleChangeArg [10, 20, 30, 40, 50, 61, 70, 80] 1 4 = [] ∧
    jsSlice [10, 20, 30, 40, 50, 61, 70, 80] (1 * 4) ((1 + 1) * 4) =
      [50, 61, 70, 80] := ⟨rfl, rfl, rfl⟩
